import Mathlib

/-!
Shallow embedding of the request execution and continuation engine of
wikitools3 (file src/wikitools3/api.py), together with theorems settling the
frozen claims about it.

Conventions used throughout:
- Python dicts that the source mutates and iterates in insertion order are
  modelled as association lists `List (String × _)`; `lookupA` models key
  lookup (`d[k]` / `k in d`), `setA` models `d[k] = v` (replacing the value
  of an existing key in place, else appending), and `popA` models
  `d.pop(k, None)`.
- Machine integers are `Nat`/`Int`; no overflow is relevant in the source.
- `time.sleep(x + 0.5)` calls are modelled by recording the integral number
  of seconds `x` that the source computes; the constant 0.5-second fraction
  is below the granularity of the model.
- Exceptions are modelled with `Except`; an `Except.error` that no handler
  catches models an exception propagating to the caller.
-/

namespace WikitoolsApi

/-- Lookup in an association list modelling a Python dict: first binding of
the key, `none` when the key is absent. -/
def lookupA {β : Type} : List (String × β) → String → Option β
  | [], _ => none
  | (k, v) :: t, key => if k = key then some v else lookupA t key

/-- Models `d[k] = v` on a Python dict: replace the binding of an existing
key in place, else append the new binding at the end (insertion order). -/
def setA {β : Type} : List (String × β) → String → β → List (String × β)
  | [], key, v => [(key, v)]
  | (k, w) :: t, key, v => if k = key then (key, v) :: t else (k, w) :: setA t key v

/-- Models `d.pop(k, None)` on a Python dict: remove the binding of `k`. -/
def popA {β : Type} (l : List (String × β)) (key : String) : List (String × β) :=
  l.filter (fun kv => !(kv.1 == key))

theorem lookupA_setA_self {β : Type} (l : List (String × β)) (k : String) (v : β) :
    lookupA (setA l k v) k = some v := by
  induction l with
  | nil => simp [setA, lookupA]
  | cons h t ih =>
    by_cases hk : h.1 = k
    · simp [setA, hk, lookupA]
    · simp [setA, hk, lookupA, ih]

theorem lookupA_setA_ne {β : Type} (l : List (String × β)) (k c : String) (v : β)
    (h : c ≠ k) : lookupA (setA l k v) c = lookupA l c := by
  induction l with
  | nil => simp [setA, lookupA, Ne.symm h]
  | cons hd t ih =>
    obtain ⟨k1, w⟩ := hd
    by_cases hk : k1 = k
    · subst hk
      simp [setA, lookupA, Ne.symm h]
    · by_cases hc : k1 = c
      · subst hc
        simp [setA, lookupA, h]
      · simp [setA, hk, lookupA, hc, ih]

theorem lookupA_popA_self {β : Type} (l : List (String × β)) (k : String) :
    lookupA (popA l k) k = none := by
  induction l with
  | nil => simp [popA, lookupA]
  | cons hd t ih =>
    obtain ⟨k1, w⟩ := hd
    by_cases hk : k1 = k
    · simpa [popA, List.filter_cons, hk] using ih
    · simpa [popA, List.filter_cons, hk, lookupA] using ih

theorem lookupA_popA_of_none {β : Type} (l : List (String × β)) (k c : String)
    (h : lookupA l c = none) : lookupA (popA l k) c = none := by
  induction l with
  | nil => simp [popA, lookupA]
  | cons hd t ih =>
    obtain ⟨k1, w⟩ := hd
    by_cases hc : k1 = c
    · simp [lookupA, hc] at h
    · simp [lookupA, hc] at h
      by_cases hk : k1 = k
      · simpa [popA, List.filter_cons, hk] using ih h
      · simpa [popA, List.filter_cons, hk, lookupA, hc] using ih h

/-- A parameter value in the request data dict: a string, an int, a sequence
(a Python list of strings), or some other object such as a file-like payload
(anything that is neither `str` nor `int`/`float` nor a sequence). -/
inductive PVal where
  | str (s : String)
  | int (n : Int)
  | seq (xs : List String)
  | fileLike
deriving DecidableEq, Repr

/-- UTF-8 encoding of a Unicode code point as a list of byte values; models
Python `str.encode("utf-8")` for one character. -/
def utf8EncodeCp (n : Nat) : List Nat :=
  if n < 128 then [n]
  else if n < 2048 then [192 + n / 64, 128 + n % 64]
  else if n < 65536 then [224 + n / 4096, 128 + (n / 64) % 64, 128 + n % 64]
  else [240 + n / 262144, 128 + (n / 4096) % 64, 128 + (n / 64) % 64, 128 + n % 64]

/-- The UTF-8 byte sequence of a string. -/
def utf8Bytes (s : String) : List Nat :=
  s.data.foldr (fun c acc => utf8EncodeCp c.toNat ++ acc) []

/-- Bytes never percent-quoted by `urllib.parse.quote`: ASCII letters,
digits, and the four marks `_`, `.`, `-`, `~`. -/
def isSafeByte (b : Nat) : Bool :=
  (65 ≤ b && b ≤ 90) || (97 ≤ b && b ≤ 122) || (48 ≤ b && b ≤ 57) ||
    b == 95 || b == 46 || b == 45 || b == 126

/-- Uppercase hexadecimal digit for a value below 16. -/
def hexDig (n : Nat) : Char :=
  if n < 10 then Char.ofNat (48 + n) else Char.ofNat (55 + n)

/-- Encoding of one UTF-8 byte by `urllib.parse.quote_plus`: a space becomes
a plus sign, safe bytes stand for themselves, and every other byte becomes a
percent escape with two uppercase hex digits. -/
def quoteByte (b : Nat) : String :=
  if b = 32 then "+"
  else if isSafeByte b then String.singleton (Char.ofNat b)
  else String.mk ['%', hexDig (b / 16), hexDig (b % 16)]

/-- Models `urllib.parse.quote_plus` applied to a text string (UTF-8 byte
percent-encoding with space mapped to the plus sign). -/
def quote_plus (s : String) : String :=
  ((utf8Bytes s).map quoteByte).foldl (fun a p => a ++ p) ""

/-- Models the module-level `urlencode(query, 1)` of api.py (every call site
in the module passes `doseq = 1`: lines 87, 124 and 149).  For each pair the
key is quoted; a `str` value is quoted directly; an `int` value is quoted via
`str(v)`; for every other value the source evaluates `v.type(str)`, an
attribute that does not exist, so an `AttributeError` propagates (the inline
TODO on that line records that `.type()` is broken for Python 3); the
sequence branch below it is unreachable.  The joined `k=v` parts are
separated by `&`. -/
def urlencode (query : List (String × PVal)) : Except Unit String := do
  let parts ← query.mapM (fun kv => do
    let ke := quote_plus kv.1
    match kv.2 with
    | .str s => pure (ke ++ "=" ++ quote_plus s)
    | .int n => pure (ke ++ "=" ++ quote_plus (toString n))
    | .seq _ => throw ()
    | .fileLike => throw ())
  pure (String.intercalate "&" parts)

/-- The configuration contract consumed from the owning wiki object: the
fields of the `wiki` collaborator that `APIRequest.__init__` reads. -/
structure WikiCfg where
  assertval : Option PVal
  maxlag : Int
  maxwaittime : Nat
deriving DecidableEq, Repr

/-- The mutable request state of an `APIRequest`: `data` models `self.data`
(the parameter dict) and `req` models the parameter content encoded into
`self.request` (rebuilt from `self.data` whenever `changeParam` runs). -/
structure GenState where
  data : List (String × PVal)
  req : List (String × PVal)
deriving DecidableEq, Repr

/-- Models the parameter handling of `APIRequest.__init__` (api.py lines
72-79 and 108): copy the caller data, force `format` to `"json"`, add the
`assert` value for write requests when configured, default `maxlag` when the
caller did not pass one and the configured maxlag is nonnegative, and build
the encoded request from the resulting dict. -/
def apiRequestInit (cfg : WikiCfg) (input : List (String × PVal)) (iswrite : Bool) :
    GenState :=
  let d := setA input "format" (.str "json")
  let d := match cfg.assertval, iswrite with
    | some a, true => setA d "assert" a
    | _, _ => d
  let d := if (lookupA d "maxlag").isNone && decide (0 ≤ cfg.maxlag)
    then setA d "maxlag" (.int cfg.maxlag) else d
  { data := d, req := d }

/-- The initial transient-retry delay: `self.sleep = 5` in
`APIRequest.__init__` (api.py line 72). -/
def initialSleep : Nat := 5

/-- Models `APIRequest.changeParam` (api.py lines 128-152): changing the
`format` parameter raises `APIError` before anything is mutated; otherwise
the data dict is updated and the encoded request is rebuilt from it. -/
def changeParam (st : GenState) (param : String) (v : PVal) :
    Except String GenState :=
  if param = "format" then .error "You can not change the result format"
  else
    let d := setA st.data param v
    .ok { data := d, req := d }

/-- The `error` member of a parsed API response: its `code` and `info`
strings. -/
structure ErrInfo where
  code : String
  info : String
deriving DecidableEq, Repr

/-- A successfully parsed JSON response body, as classified by
`APIRequest.__parseJSON`: either a dict (wrapped as `APIResult`) or a list
(wrapped as `APIListResult`).  A dict is modelled by the three members the
engine inspects — `error`, `continue` and `query-continue` — plus the number
`others` of remaining keys (which only affects Python truthiness).  A list is
modelled by its items, as strings (the engine only ever applies string
membership tests to list results). -/
inductive PBody where
  | dict (err : Option ErrInfo) (contin : Option (List (String × PVal)))
      (qcont : Option (List (String × List (String × PVal)))) (others : Nat)
  | list (items : List String)
deriving DecidableEq, Repr

/-- Python truthiness of a parsed body: a dict is truthy when it has at
least one key and a list when it has at least one item. -/
def truthyB : PBody → Bool
  | .dict e c q o => e.isSome || c.isSome || q.isSome || !(o == 0)
  | .list items => !items.isEmpty

/-- Whether the body is a list result (`type(data) is APIListResult`). -/
def isListB : PBody → Bool
  | .dict _ _ _ _ => false
  | .list _ => true

/-- One raw HTTP response body handed to `APIRequest.__parseJSON`:
either `json.loads` raises (`invalid`) or it returns a body.  The `sentinel`
flag records whether the raw text contains the "MediaWiki API is not
enabled" phrase, which the bare except handler looks for. -/
inductive Raw where
  | invalid (sentinel : Bool)
  | body (b : PBody) (sentinel : Bool)
deriving DecidableEq, Repr

/-- The eight characters that must follow the digit run for the pattern
in `re.search("(\x5cd+) seconds", ...)` to match. -/
def secondsLit : List Char := [' ', 's', 'e', 'c', 'o', 'n', 'd', 's']

/-- Numeric value of a digit run, modelling Python `int` on the matched
group. -/
def natOfDigits (ds : List Char) : Nat :=
  ds.foldl (fun a c => a * 10 + (c.toNat - 48)) 0

/-- Leftmost match of the pattern `(\x5cd+) seconds`: at each position, take
the maximal digit run and check that the text " seconds" follows.  Because
" seconds" starts with a non-digit, the maximal run is the only candidate at
each start position, so this scan computes exactly what `re.search` returns
for that pattern. -/
def lagScan : List Char → Option Nat
  | [] => none
  | c :: cs =>
    if c.isDigit then
      if ((c :: cs).dropWhile (fun x => x.isDigit)).take 8 = secondsLit then
        some (natOfDigits ((c :: cs).takeWhile (fun x => x.isDigit)))
      else lagScan cs
    else lagScan cs

/-- Models `int(re.search("(\x5cd+) seconds", info).group(1))`: the lag
seconds extracted from a maxlag error message, or `none` when the pattern
does not occur (so that `.group(1)` raises into the bare except handler). -/
def lagMatch (s : String) : Option Nat := lagScan s.data

/-- The outcome of one `APIRequest.__parseJSON` call. -/
inductive PStep where
  | retryInvalid
  | retryMaxlag (slept : Nat)
  | disabled
  | result (b : PBody)
deriving DecidableEq, Repr

/-- Models `APIRequest.__parseJSON` (api.py lines 300-338) on one raw body.
When `json.loads` raises, the handler checks the disabled-API sentinel and
otherwise returns `False` (retry).  On a parsed body, `"error" in content`
is key membership for a dict and item membership for a list; a list that
does contain the item `"error"` makes `content["error"]` raise `TypeError`
into the same handler.  A dict whose error code is `"maxlag"` extracts the
lag from the message, caps it at `wiki.maxwaittime`, sleeps it and returns
`False`; when the message has no lag figure, `.group(1)` raises into the
handler.  Every other body is returned as the parsed content. -/
def parseJSON (mw : Nat) : Raw → PStep
  | .invalid sentinel => if sentinel then .disabled else .retryInvalid
  | .body b sentinel =>
    match b with
    | .list items =>
      if items.contains "error" then
        (if sentinel then .disabled else .retryInvalid)
      else .result b
    | .dict errf c q o =>
      match errf with
      | some e =>
        if e.code = "maxlag" then
          match lagMatch e.info with
          | some lag => .retryMaxlag (min lag mw)
          | none => if sentinel then .disabled else .retryInvalid
        else .result (.dict (some e) c q o)
      | none => .result (.dict none c q o)

/-- The result of the `while not data` parse loop shared by `query` and
`queryGen` (api.py lines 169-174 and 194-199). -/
inductive Accepted where
  | got (b : PBody)
  | disabledEnd
  | ranOut
deriving DecidableEq, Repr

/-- Models the `while not data` loop of `APIRequest.query`: fetch and parse
until the parsed value is truthy, or stop early when a falsy value is an
`APIListResult`.  The script lists the successive raw bodies produced by
`__getRaw`; the returned list records the maxlag sleeps performed (capped
lag seconds).  An exhausted script means the loop was still retrying. -/
def queryLoop (mw : Nat) : List Raw → Accepted × List Nat
  | [] => (.ranOut, [])
  | r :: rest =>
    match parseJSON mw r with
    | .result b =>
      if truthyB b then (.got b, [])
      else if isListB b then (.got b, [])
      else queryLoop mw rest
    | .retryInvalid => queryLoop mw rest
    | .retryMaxlag t =>
      let r2 := queryLoop mw rest
      (r2.1, t :: r2.2)
    | .disabled => (.disabledEnd, [])

/-- The outcome of `APIRequest.query`. -/
inductive QOut where
  | ok (b : PBody)
  | apiError (code info : String)
  | userBlocked (info : String)
  | disabledErr
  | ranOut
  | keyErrorAction
  | legacy (b : PBody)
  | typeErr
deriving DecidableEq, Repr

/-- Models `APIRequest.query` (api.py lines 154-181).  With `querycontinue`
set, `self.data["action"]` raises `KeyError` when the request has no
`action` parameter (line 162).  After the parse loop, a dict with an `error`
member raises `UserBlocked` for a blocked write and `APIError` otherwise;
then control passes to `__longQuery` when a `query-continue` member is
present and `querycontinue` is set (`legacy`); otherwise the accepted body
is returned.  For a list result both checks are item membership, and a list
that contains the item `"error"` makes `data["error"]` raise `TypeError`. -/
def queryModel (iswrite : Bool) (mw : Nat) (querycontinue : Bool)
    (action : Option PVal) (script : List Raw) : QOut × List Nat :=
  if querycontinue ∧ action = none then (.keyErrorAction, [])
  else
    match queryLoop mw script with
    | (.ranOut, s) => (.ranOut, s)
    | (.disabledEnd, s) => (.disabledErr, s)
    | (.got b, s) =>
      match b with
      | .dict (some e) _ _ _ =>
        if iswrite ∧ e.code = "blocked" then (.userBlocked e.info, s)
        else (.apiError e.code e.info, s)
      | .dict none c q o =>
        if q.isSome ∧ querycontinue then (.legacy (.dict none c q o), s)
        else (.ok (.dict none c q o), s)
      | .list items =>
        if items.contains "error" then (.typeErr, s)
        else if items.contains "query-continue" ∧ querycontinue then
          (.legacy (.list items), s)
        else (.ok (.list items), s)

/-- How a `queryGen` run ends. -/
inductive GenEnd where
  | normal
  | ranOut
  | disabledErr
  | apiError (code info : String)
  | userBlocked (info : String)
  | typeErr
  | formatErr
deriving DecidableEq, Repr

/-- The observable trace of a `queryGen` run: the parameter content of every
request issued (one per `__getRaw` call), the pages yielded to the caller in
order, and how the run ended. -/
structure GenTrace where
  reqs : List (List (String × PVal))
  yields : List PBody
  fin : GenEnd
deriving DecidableEq, Repr

/-- Applies `self.changeParam(param, data["continue"][param])` for each pair
of the `continue` mapping in order (api.py lines 208-209). -/
def foldCont (st : GenState) (m : List (String × PVal)) : Except String GenState :=
  m.foldlM (fun s pv => changeParam s pv.1 pv.2) st

/-- Models the loop body of `APIRequest.queryGen` (api.py lines 193-209)
over a script of raw bodies.  Each script element is one `__getRaw` call and
thus one issued request, whose parameter content is the current `st.req`.
A falsy parsed dict repeats the inner parse loop; a falsy list is accepted.
An accepted dict with an `error` member raises before anything is yielded.
An accepted page is yielded, then: no `continue` member ends the sequence
with no further request; otherwise `self.request` is restored from the saved
copy — but `self.data` is not — and `changeParam` is applied for each pair
of the `continue` mapping, each call rebuilding the request from the
never-restored `self.data`.  A list page that contains the item `"continue"`
makes `data["continue"]` raise `TypeError` after the yield. -/
def genRun (iswrite : Bool) (mw : Nat) (reqcopy : List (String × PVal))
    (st : GenState) : List Raw → GenTrace
  | [] => ⟨[], [], .ranOut⟩
  | r :: rest =>
    match parseJSON mw r with
    | .retryInvalid =>
      let t := genRun iswrite mw reqcopy st rest
      ⟨st.req :: t.reqs, t.yields, t.fin⟩
    | .retryMaxlag _ =>
      let t := genRun iswrite mw reqcopy st rest
      ⟨st.req :: t.reqs, t.yields, t.fin⟩
    | .disabled => ⟨[st.req], [], .disabledErr⟩
    | .result b =>
      if !truthyB b && !isListB b then
        let t := genRun iswrite mw reqcopy st rest
        ⟨st.req :: t.reqs, t.yields, t.fin⟩
      else
        match b with
        | .dict (some e) _ _ _ =>
          if iswrite ∧ e.code = "blocked" then ⟨[st.req], [], .userBlocked e.info⟩
          else ⟨[st.req], [], .apiError e.code e.info⟩
        | .dict none contin q o =>
          match contin with
          | none => ⟨[st.req], [.dict none none q o], .normal⟩
          | some m =>
            match foldCont { st with req := reqcopy } m with
            | .error _ => ⟨[st.req], [.dict none (some m) q o], .formatErr⟩
            | .ok st2 =>
              let t := genRun iswrite mw reqcopy st2 rest
              ⟨st.req :: t.reqs, .dict none (some m) q o :: t.yields, t.fin⟩
        | .list items =>
          if items.contains "error" then ⟨[st.req], [], .typeErr⟩
          else if items.contains "continue" then ⟨[st.req], [.list items], .typeErr⟩
          else ⟨[st.req], [.list items], .normal⟩

/-- Models `APIRequest.queryGen` (api.py lines 183-209): save a copy of the
current request, set the `continue` parameter to the empty string, and run
the streaming loop. -/
def queryGenModel (iswrite : Bool) (mw : Nat) (st0 : GenState)
    (script : List Raw) : GenTrace :=
  let reqcopy := st0.req
  match changeParam st0 "continue" (.str "") with
  | .error _ => ⟨[], [], .formatErr⟩
  | .ok st1 => genRun iswrite mw reqcopy st1 script

/-- Models the retry loop of `APIRequest.__getRaw` (api.py lines 266-298).
`att i` is the outcome of HTTP attempt number `i` (an abstract payload on
success, an exception on failure).  At each iteration the source sets
`catcherror = None` when `self.sleep >= wiki.maxwaittime` or the request is
a write, else `catcherror = Exception`; an uncaught exception propagates
immediately, while a caught one sleeps the current delay and adds 5 to it.
The returned list records the delays slept, in order. -/
def getRawGo (mw : Nat) (iswrite : Bool) (att : Nat → Except Unit Nat)
    (i : Nat) (sleep : Nat) : Except Unit Nat × List Nat :=
  match att i with
  | .ok d => (.ok d, [])
  | .error e =>
    if h : sleep < mw ∧ iswrite = false then
      ((getRawGo mw iswrite att (i + 1) (sleep + 5)).1,
        sleep :: (getRawGo mw iswrite att (i + 1) (sleep + 5)).2)
    else (.error e, [])
termination_by mw - sleep
decreasing_by omega

/-- The number of caught-and-retried attempts the backoff loop performs
before the delay reaches the ceiling, starting from delay `sleep`:
the least `n` with `mw ≤ sleep + 5 * n`. -/
def nRetries (mw sleep : Nat) : Nat := (mw - sleep + 4) / 5

theorem nRetries_of_ge (mw sleep : Nat) (h : mw ≤ sleep) : nRetries mw sleep = 0 := by
  unfold nRetries
  omega

theorem nRetries_of_lt (mw sleep : Nat) (h : sleep < mw) :
    nRetries mw sleep = nRetries mw (sleep + 5) + 1 := by
  unfold nRetries
  omega

/-- With persistently failing attempts and a non-write request, the backoff
loop sleeps the current delay at every caught failure, adds 5 each time, and
propagates the exception once the delay reaches the ceiling. -/
theorem getRawGo_allFail (mw : Nat) (att : Nat → Except Unit Nat)
    (hf : ∀ j, att j = .error ()) :
    ∀ fuel sleep i, mw - sleep ≤ fuel →
      getRawGo mw false att i sleep =
        (.error (), (List.range (nRetries mw sleep)).map fun j => sleep + 5 * j) := by
  intro fuel
  induction fuel with
  | zero =>
    intro sleep i hle
    have hge : mw ≤ sleep := by omega
    rw [getRawGo, hf i]
    simp only []
    split
    · next hcond => exact absurd hcond.1 (by omega)
    · rw [nRetries_of_ge mw sleep hge]
      rfl
  | succ f ih =>
    intro sleep i hle
    by_cases hlt : sleep < mw
    · have hrec := ih (sleep + 5) (i + 1) (by omega)
      have hlist : List.map (fun j => sleep + 5 * j) (List.range (nRetries mw sleep))
          = sleep :: List.map (fun j => sleep + 5 + 5 * j)
              (List.range (nRetries mw (sleep + 5))) := by
        rw [nRetries_of_lt mw sleep hlt, List.range_succ_eq_map, List.map_cons,
          List.map_map]
        simp only [List.cons.injEq]
        refine ⟨by omega, ?_⟩
        exact List.map_congr_left fun j _ => by
          simp only [Function.comp_apply]
          omega
      rw [getRawGo, hf i]
      simp only []
      split
      · simp only [hrec]
        rw [hlist]
      · next hcond => exact absurd ⟨hlt, by trivial⟩ hcond
    · have hge : mw ≤ sleep := by omega
      rw [getRawGo, hf i]
      simp only []
      split
      · next hcond => exact absurd hcond.1 (by omega)
      · rw [nRetries_of_ge mw sleep hge]
        rfl

/-- Models the continuation key selection of `APIRequest.__longQuery`
(api.py lines 219-247) under Python 3 semantics, where `possiblecontinues`
and `keylist` are `dict_keys` views: the scan over all (outer, inner)
combinations looking for an inner key shorter than 11 characters works (an
outer key that is the empty string is skipped, because the source tests the
truthiness of `key1` to decide whether to break), but every path that
subscripts a keys view with `[0]` — the single-outer-key branch at line 224
and the fallbacks at lines 234 and 246-247 — raises `TypeError`, modelled as
`Except.error`. -/
def findShort : List (String × List (String × PVal)) → Option (String × String)
  | [] => none
  | (k1, inner) :: rest =>
    match inner.find? (fun kv => decide (kv.1.length < 11)) with
    | some kv => if k1 = "" then findShort rest else some (k1, kv.1)
    | none => findShort rest

/-- The (outer key, inner key) pair selected to advance a legacy
`query-continue` response, or the `TypeError` raised on a keys-view
subscript; see `findShort`. -/
def selectContinuation (qc : List (String × List (String × PVal))) :
    Except Unit (String × String) :=
  if qc.length = 1 then .error ()
  else
    match findShort qc with
    | some p => .ok p
    | none => .error ()

/-- The continuation bookkeeping state of `__longQuery`: `continues` models
the set `self._continues` of tracked non-generator continuation keys and
`generator` models `self._generator`. -/
structure LQState where
  continues : List String
  generator : String
deriving DecidableEq, Repr

/-- Models `set.add`: append the key when it is not already tracked. -/
def addCont (l : List String) (k : String) : List String :=
  if k ∈ l then l else l ++ [k]

/-- Whether a string starts with the given other string; models Python
`str.startswith`. -/
def pyStartsWith (s pre : String) : Bool := pre.data.isPrefixOf s.data

/-- Models api.py lines 252-258, the continuation bookkeeping performed
after a key pair is selected: when the selected inner key has length at
least 11 and starts with "g" it becomes the generator key and every tracked
continuation key is popped from the parameters; otherwise it is added to the
tracked set.  In both branches the parameter for the selected key is then
set to the continuation value. -/
def contAdvance (st : LQState) (params : List (String × PVal)) (key2 : String)
    (cont : PVal) : LQState × List (String × PVal) :=
  if 11 ≤ key2.length ∧ pyStartsWith key2 "g" = true then
    ({ st with generator := key2 },
      setA (st.continues.foldl popA params) key2 cont)
  else
    ({ st with continues := addCont st.continues key2 }, setA params key2 cont)

theorem lookupA_foldl_popA (cs : List String) (params : List (String × PVal))
    (c : String) (h : c ∈ cs ∨ lookupA params c = none) :
    lookupA (cs.foldl popA params) c = none := by
  induction cs generalizing params with
  | nil =>
    rcases h with h | h
    · simp at h
    · simpa using h
  | cons hd t ih =>
    rcases h with h | h
    · rcases List.mem_cons.mp h with h1 | h1
      · subst h1
        exact ih (popA params c) (Or.inr (lookupA_popA_self params c))
      · exact ih (popA params hd) (Or.inl h1)
    · exact ih (popA params hd) (Or.inr (lookupA_popA_of_none params hd c h))

/-- One entry of a per-page property list: a JSON object of scalar string
fields, modelled as an association list in serialization order.  The
`tuple(entry.items())` taken by `resultCombine` is exactly this list. -/
abbrev Entry := List (String × String)

/-- A page object of the `pages` sub-object, restricted to its list-valued
property members (the only parts `resultCombine` reads or writes). -/
abbrev PropTbl := List (String × List Entry)

/-- The `pages` sub-object: page identifier to page object. -/
abbrev Pages := List (String × PropTbl)

/-- The `query` object of an API response: its simple list-valued members
and its `pages` sub-object. -/
structure QueryRes where
  lists : List (String × List Entry)
  pages : Pages
deriving Repr

/-- Models lines 370-373 of api.py: build the set of entry item-tuples of
the aggregate, union the new page entries into it, and convert back to a
list of entries.  `List.dedup` has exactly the membership of the union of
the two sets; list order stands in for the arbitrary Python set iteration
order. -/
def dedupEntries (olde newe : List Entry) : List Entry :=
  (olde ++ newe).dedup

/-- Models one iteration of the per-page loop of `resultCombine` (api.py
lines 360-373) for the page with the given id: a page missing from the
aggregate is added verbatim; a page whose new copy lacks the property is
skipped; a page whose aggregate copy lacks the property receives the new
list; and when both have the property, the entry lists are merged through
`dedupEntries`. -/
def mergePage (ty : String) (acc : Pages) (kv : String × PropTbl) : Pages :=
  match lookupA acc kv.1 with
  | none => setA acc kv.1 kv.2
  | some opage =>
    match lookupA kv.2 ty with
    | none => acc
    | some nents =>
      match lookupA opage ty with
      | none => setA acc kv.1 (setA opage ty nents)
      | some oents => setA acc kv.1 (setA opage ty (dedupEntries oents nents))

/-- Models `resultCombine(type, old, new)` (api.py lines 349-374).  When the
query type is a simple top-level list of the new response, the aggregate
list is extended (`ret["query"][type]` raises `KeyError` when the aggregate
lacks it); otherwise every page of the new response is merged into the
aggregate `pages` object in order, mutating the aggregate in place (modelled
by the fold accumulator). -/
def resultCombine (ty : String) (old new : QueryRes) : Except Unit QueryRes :=
  if (lookupA new.lists ty).isSome then
    match lookupA old.lists ty with
    | some cur =>
      .ok { old with lists := setA old.lists ty (cur ++ (lookupA new.lists ty).getD []) }
    | none => .error ()
  else
    .ok { old with pages := new.pages.foldl (mergePage ty) old.pages }

/-- Field-value equality of two entries: equality as unordered mappings
(what Python `==` on the corresponding dicts computes). -/
def entriesEqAsMaps (a b : Entry) : Bool :=
  a.length == b.length && a.all (fun p => b.contains p) && b.all (fun p => a.contains p)

theorem apiRequestInit_req_eq_data (cfg : WikiCfg) (input : List (String × PVal))
    (iswrite : Bool) :
    (apiRequestInit cfg input iswrite).req = (apiRequestInit cfg input iswrite).data := rfl

/-- C6: every constructed request carries `format = "json"` whatever the
caller supplied for `format`, and `changeParam` on the `format` parameter
fails with `APIError` producing no updated request state. -/
theorem c6_format_always_json (cfg : WikiCfg) (input : List (String × PVal))
    (iswrite : Bool) (st : GenState) (v : PVal) :
    lookupA (apiRequestInit cfg input iswrite).data "format" = some (PVal.str "json")
    ∧ lookupA (apiRequestInit cfg input iswrite).req "format" = some (PVal.str "json")
    ∧ changeParam st "format" v = .error "You can not change the result format" := by
  have h1 := lookupA_setA_self input "format" (PVal.str "json")
  have hdata : lookupA (apiRequestInit cfg input iswrite).data "format"
      = some (PVal.str "json") := by
    unfold apiRequestInit
    rcases cfg with ⟨av, ml, mwt⟩
    cases av <;> cases iswrite <;>
      · simp only []
        split
        · rw [lookupA_setA_ne _ "maxlag" "format" _ (by decide)]
          first
            | exact h1
            | rw [lookupA_setA_ne _ "assert" "format" _ (by decide)]
              exact h1
        · first
            | exact h1
            | rw [lookupA_setA_ne _ "assert" "format" _ (by decide)]
              exact h1
  exact ⟨hdata, (apiRequestInit_req_eq_data cfg input iswrite).symm ▸ hdata,
    by simp [changeParam]⟩

/-- C5 fails on the code: for a sequence-valued parameter (and any other
value that is neither `str` nor `int`/`float`) the encoder evaluates
`v.type(str)` and raises `AttributeError` instead of repeating the key per
element, so the claimed round-trip never happens for those inputs; the
`str`/`int` paths do encode as claimed, with UTF-8 percent-encoding. -/
theorem c5_urlencode_eval :
    urlencode [("titles", PVal.seq ["Main Page", "Foo"])] = .error ()
    ∧ urlencode [("action", PVal.str "query"), ("ns", PVal.int 0)]
      = .ok "action=query&ns=0"
    ∧ quote_plus "café" = "caf%C3%A9"
    ∧ quote_plus "Main Page" = "Main+Page" :=
  ⟨rfl, rfl, rfl, rfl⟩

/-- C2 fails on the code under Python 3: with a single outstanding outer
key — such as the legacy response `query-continue = {images: {imcontinue:
foo}}` — line 224 subscripts a `dict_keys` view and raises `TypeError`, so
no pair is selected; the multi-outer-key scan for an inner key shorter than
11 characters does work and deterministically picks the short pair. -/
theorem c2_select_continuation_eval :
    selectContinuation [("images", [("imcontinue", PVal.str "foo")])] = .error ()
    ∧ selectContinuation [("allpages", [("gapcontinue", PVal.str "a")]),
        ("images", [("imcontinue", PVal.str "b")])] = .ok ("images", "imcontinue")
    ∧ "imcontinue".length < 11 ∧ 11 ≤ "gapcontinue".length :=
  ⟨rfl, rfl, by decide, by decide⟩

/-- C3: for a write request the transport loop never catches the exception
of the HTTP exchange: the first failing attempt propagates with no sleep
and no further attempt. -/
theorem c3_write_no_retry (mw : Nat) (att : Nat → Except Unit Nat) (i sleep : Nat)
    (h : att i = .error ()) :
    getRawGo mw true att i sleep = (.error (), []) := by
  rw [getRawGo, h]
  simp only []
  split
  · next hcond => simp at hcond
  · rfl

/-- Witness for C3 at a concrete failing attempt. -/
theorem c3_write_no_retry_witness :
    getRawGo 100 true (fun _ => .error ()) 0 initialSleep = (.error (), []) :=
  c3_write_no_retry 100 (fun _ => .error ()) 0 initialSleep rfl

/-- C7: for a non-write request with persistently failing transport, the
loop sleeps the current delay after each caught failure, the delays form the
arithmetic progression starting at the fixed initial delay with step 5, only
delays below the configured ceiling are caught, and after finitely many
retries — `nRetries` of them — the delay reaches the ceiling and the
exception propagates. -/
theorem c7_nonwrite_backoff (mw : Nat) (att : Nat → Except Unit Nat)
    (hf : ∀ j, att j = .error ()) (i : Nat) :
    getRawGo mw false att i initialSleep
      = (.error (), (List.range (nRetries mw initialSleep)).map
          fun j => initialSleep + 5 * j)
    ∧ (∀ j < nRetries mw initialSleep, initialSleep + 5 * j < mw)
    ∧ mw ≤ initialSleep + 5 * nRetries mw initialSleep := by
  refine ⟨getRawGo_allFail mw att hf (mw - initialSleep) initialSleep i (le_refl _),
    ?_, ?_⟩
  · intro j hj
    unfold nRetries initialSleep at hj
    unfold initialSleep
    omega
  · unfold nRetries initialSleep
    omega

/-- Witness for C7: ceiling 12 gives exactly the two sleeps 5 and 10 before
the exception propagates. -/
theorem c7_nonwrite_backoff_witness :
    getRawGo 12 false (fun _ => .error ()) 0 initialSleep = (.error (), [5, 10])
    ∧ 12 ≤ initialSleep + 5 * nRetries 12 initialSleep := by
  have h := c7_nonwrite_backoff 12 (fun _ => .error ()) (fun j => rfl) 0
  exact ⟨h.1, h.2.2⟩

/-- C10: a decoded empty list payload is accepted as a successful result by
both consumption paths: `query` ends its parse-retry loop and returns it
with no error, and `queryGen` yields it and terminates the sequence without
issuing a further request. -/
theorem c10_empty_list_accepted (iswrite : Bool) (mw : Nat) (st0 : GenState)
    (rest : List Raw) :
    queryModel iswrite mw true (some (PVal.str "query"))
        (Raw.body (.list []) false :: rest) = (.ok (.list []), [])
    ∧ queryGenModel iswrite mw st0 (Raw.body (.list []) false :: rest)
      = ⟨[setA st0.data "continue" (PVal.str "")], [.list []], .normal⟩ :=
  ⟨rfl, rfl⟩

/-- C4: a parsed payload whose `error` code is `"maxlag"` makes the decoder
extract the lag seconds from the message text, cap them at the configured
maximum wait time, sleep that (capped) figure and signal retry of the same
request; a single maxlag response followed by a truthy error-free success
yields exactly that one sleep and `query` returns the success payload with
no error surfaced. -/
theorem c4_maxlag_retry (mw : Nat) (iswrite : Bool) (info : String) (lag : Nat)
    (h : lagMatch info = some lag)
    (c : Option (List (String × PVal)))
    (q : Option (List (String × List (String × PVal)))) (o : Nat)
    (htr : truthyB (.dict none c q o) = true) (rest : List Raw) :
    parseJSON mw (.body (.dict (some ⟨"maxlag", info⟩) none none 0) false)
      = .retryMaxlag (min lag mw)
    ∧ queryModel iswrite mw false (some (PVal.str "query"))
        (Raw.body (.dict (some ⟨"maxlag", info⟩) none none 0) false
          :: Raw.body (.dict none c q o) false :: rest)
      = (.ok (.dict none c q o), [min lag mw]) := by
  have hp1 : parseJSON mw (.body (.dict (some ⟨"maxlag", info⟩) none none 0) false)
      = .retryMaxlag (min lag mw) := by
    simp [parseJSON, h]
  refine ⟨hp1, ?_⟩
  simp [queryModel, queryLoop, hp1, parseJSON, h, htr]

/-- Witness for C4: lag 7 against ceiling 5 sleeps the capped 5 seconds
once and the success payload comes back. -/
theorem c4_maxlag_retry_witness :
    queryModel false 5 false (some (PVal.str "query"))
        [Raw.body (.dict (some ⟨"maxlag", "Waiting for a database: 7 seconds lagged"⟩)
            none none 0) false,
          Raw.body (.dict none none none 1) false]
      = (.ok (.dict none none none 1), [5])
    ∧ lagMatch "Waiting for a database: 7 seconds lagged" = some 7 := by
  have h := c4_maxlag_retry 5 false "Waiting for a database: 7 seconds lagged" 7 rfl
    none none 1 rfl []
  exact ⟨h.2, rfl⟩

/-- C8: when the selected inner key has length at least 11 and starts with
the generator marker "g", it becomes the generator key and every previously
tracked continuation key is removed from the parameters of the next
request; otherwise the selected key joins the tracked continuation set and
its parameter is set. -/
theorem c8_generator_supersedes (st : LQState) (params : List (String × PVal))
    (key2 : String) (cont : PVal) :
    ((11 ≤ key2.length ∧ pyStartsWith key2 "g" = true) →
        (contAdvance st params key2 cont).1.generator = key2
        ∧ ∀ c ∈ st.continues, c ≠ key2 →
            lookupA (contAdvance st params key2 cont).2 c = none)
    ∧ (¬ (11 ≤ key2.length ∧ pyStartsWith key2 "g" = true) →
        (contAdvance st params key2 cont).1.continues = addCont st.continues key2
        ∧ key2 ∈ (contAdvance st params key2 cont).1.continues
        ∧ lookupA (contAdvance st params key2 cont).2 key2 = some cont) := by
  constructor
  · intro hg
    have hadv : contAdvance st params key2 cont
        = ({ st with generator := key2 },
            setA (st.continues.foldl popA params) key2 cont) := by
      simp only [contAdvance, if_pos hg]
    rw [hadv]
    refine ⟨rfl, ?_⟩
    intro c hc hne
    rw [lookupA_setA_ne _ key2 c cont hne]
    exact lookupA_foldl_popA st.continues params c (Or.inl hc)
  · intro hg
    have hadv : contAdvance st params key2 cont
        = ({ st with continues := addCont st.continues key2 },
            setA params key2 cont) := by
      simp only [contAdvance, if_neg hg]
    rw [hadv]
    refine ⟨rfl, ?_, lookupA_setA_self params key2 cont⟩
    unfold addCont
    split
    · next hmem => exact hmem
    · simp

/-- Witness for C8: the generator key "gapcontinue" evicts the tracked key
"imcontinue" from the parameters, and a short key is tracked and set. -/
theorem c8_generator_supersedes_witness :
    (contAdvance ⟨["imcontinue"], ""⟩
        [("imcontinue", PVal.str "x"), ("action", PVal.str "query")]
        "gapcontinue" (PVal.str "y")).1.generator = "gapcontinue"
    ∧ lookupA (contAdvance ⟨["imcontinue"], ""⟩
        [("imcontinue", PVal.str "x"), ("action", PVal.str "query")]
        "gapcontinue" (PVal.str "y")).2 "imcontinue" = none
    ∧ lookupA (contAdvance ⟨[], ""⟩ [] "imcontinue" (PVal.str "z")).2 "imcontinue"
      = some (PVal.str "z") := by
  have h1 := (c8_generator_supersedes ⟨["imcontinue"], ""⟩
    [("imcontinue", PVal.str "x"), ("action", PVal.str "query")]
    "gapcontinue" (PVal.str "y")).1 (by decide)
  have h2 := (c8_generator_supersedes ⟨[], ""⟩ [] "imcontinue" (PVal.str "z")).2
    (by decide)
  exact ⟨h1.1, h1.2 "imcontinue" (by decide) (by decide), h2.2.2⟩

/-- The two orderings of one and the same set of entry fields. -/
def cexEntryA : Entry := [("lang", "en"), ("title", "X")]

/-- See `cexEntryA`: the same fields in the other serialization order. -/
def cexEntryB : Entry := [("title", "X"), ("lang", "en")]

/-- C9 fails as stated: merging two copies of a page whose property lists
hold the same entry serialized with its fields in different orders keeps
both copies, because the dedup key is the ordered item-tuple, not the
unordered field-value mapping; the merged list then contains two entries
that are equal by field-value equality. -/
theorem c9_fieldvalue_dup_counterexample :
    resultCombine "langlinks"
        ⟨[], [("1", [("langlinks", [cexEntryA])])]⟩
        ⟨[], [("1", [("langlinks", [cexEntryB])])]⟩
      = .ok ⟨[], [("1", [("langlinks", [cexEntryA, cexEntryB])])]⟩
    ∧ entriesEqAsMaps cexEntryA cexEntryB = true
    ∧ cexEntryA ≠ cexEntryB :=
  ⟨rfl, rfl, by decide⟩

/-- C9 amended: for the per-page merge path (query type not a top-level
list of the new response) and a new response carrying one page, pages only
in the new response are added verbatim, pages lacking the property in the
new response leave the aggregate untouched, and pages with the property in
both are merged into a list whose members are exactly the union of both
inputs with no duplicates by item-tuple equality (entries equal as
unordered mappings but serialized with different field orders are not
merged). -/
theorem c9_per_page_merge (ty : String) (old : QueryRes)
    (nl : List (String × List Entry)) (k : String) (npage : PropTbl)
    (h0 : lookupA nl ty = none) :
    (lookupA old.pages k = none →
        resultCombine ty old ⟨nl, [(k, npage)]⟩
          = .ok ⟨old.lists, setA old.pages k npage⟩)
    ∧ (∀ opage, lookupA old.pages k = some opage → lookupA npage ty = none →
        resultCombine ty old ⟨nl, [(k, npage)]⟩ = .ok ⟨old.lists, old.pages⟩)
    ∧ (∀ opage oents nents, lookupA old.pages k = some opage →
        lookupA npage ty = some nents → lookupA opage ty = some oents →
        resultCombine ty old ⟨nl, [(k, npage)]⟩
          = .ok ⟨old.lists,
              setA old.pages k (setA opage ty (dedupEntries oents nents))⟩
        ∧ (∀ e, e ∈ dedupEntries oents nents ↔ e ∈ oents ∨ e ∈ nents)
        ∧ (dedupEntries oents nents).Nodup) := by
  have hbase : resultCombine ty old ⟨nl, [(k, npage)]⟩
      = .ok { old with pages := mergePage ty old.pages (k, npage) } := by
    unfold resultCombine
    rw [if_neg (by simp [h0])]
    rfl
  refine ⟨?_, ?_, ?_⟩
  · intro h
    rw [hbase]
    simp only [mergePage, h]
  · intro opage h hn
    rw [hbase]
    simp only [mergePage, h, hn]
  · intro opage oents nents h hn ho
    refine ⟨?_, ?_, List.nodup_dedup _⟩
    · rw [hbase]
      simp only [mergePage, h, hn, ho]
    · intro e
      simp [dedupEntries, List.mem_dedup, List.mem_append]

/-- Witness for C9 at a concrete per-page merge with the property in both
copies of the page. -/
theorem c9_per_page_merge_witness :
    resultCombine "langlinks"
        ⟨[], [("1", [("langlinks", [[("lang", "en")]])])]⟩
        ⟨[], [("1", [("langlinks", [[("lang", "fr")], [("lang", "en")]])])]⟩
      = .ok ⟨[], [("1", [("langlinks", [[("lang", "fr")], [("lang", "en")]])])]⟩
    ∧ [("lang", "en")] ∈ dedupEntries [[("lang", "en")]]
        [[("lang", "fr")], [("lang", "en")]]
    ∧ (dedupEntries [[("lang", "en")]] [[("lang", "fr")], [("lang", "en")]]).Nodup := by
  have h := (c9_per_page_merge "langlinks"
    ⟨[], [("1", [("langlinks", [[("lang", "en")]])])]⟩ [] "1"
    [("langlinks", [[("lang", "fr")], [("lang", "en")]])] rfl).2.2
    [("langlinks", [[("lang", "en")]])] [[("lang", "en")]]
    [[("lang", "fr")], [("lang", "en")]] rfl rfl rfl
  exact ⟨h.1, (h.2.1 _).mpr (Or.inl (by simp)), h.2.2⟩

/-- The wiki configuration of the concrete queryGen run below. -/
def c1Cfg : WikiCfg := ⟨none, 5, 120⟩

/-- The request state of an `action=query` request as `__init__` builds
it: parameters action, format and maxlag. -/
def c1St0 : GenState := apiRequestInit c1Cfg [("action", PVal.str "query")] false

/-- First page of the run: continuation mapping `{c1: v1}`. -/
def c1Page1 : PBody := .dict none (some [("c1", PVal.str "v1")]) none 1

/-- Second page of the run: continuation mapping `{c2: v2}`. -/
def c1Page2 : PBody := .dict none (some [("c2", PVal.str "v2")]) none 1

/-- Last page of the run: no continuation mapping. -/
def c1Page3 : PBody := .dict none none none 1

/-- The three raw bodies the server returns in the run. -/
def c1Script : List Raw :=
  [.body c1Page1 false, .body c1Page2 false, .body c1Page3 false]

/-- C1 fails on the code: each page is yielded in order and the sequence
ends after the page without a `continue` mapping, but the third request is
not the saved original request overwritten by the keys of the second
`continue` mapping — it still carries the parameter `c1` from the first
continuation (and the empty `continue` parameter), because `self.data` is
never restored and `changeParam` rebuilds the request from it.  The last
two conjuncts show that `c1` is neither a parameter of the saved original
request nor a key of the second `continue` mapping. -/
theorem c1_stale_continuation_eval :
    queryGenModel false 120 c1St0 c1Script
      = ⟨[[("action", PVal.str "query"), ("format", PVal.str "json"),
            ("maxlag", PVal.int 5), ("continue", PVal.str "")],
          [("action", PVal.str "query"), ("format", PVal.str "json"),
            ("maxlag", PVal.int 5), ("continue", PVal.str ""),
            ("c1", PVal.str "v1")],
          [("action", PVal.str "query"), ("format", PVal.str "json"),
            ("maxlag", PVal.int 5), ("continue", PVal.str ""),
            ("c1", PVal.str "v1"), ("c2", PVal.str "v2")]],
         [c1Page1, c1Page2, c1Page3], .normal⟩
    ∧ lookupA ((queryGenModel false 120 c1St0 c1Script).reqs.getD 2 []) "c1"
      = some (PVal.str "v1")
    ∧ lookupA c1St0.req "c1" = none
    ∧ lookupA [("c2", PVal.str "v2")] "c1" = none :=
  ⟨rfl, rfl, rfl, rfl⟩

end WikitoolsApi
